import Mathlib

/-! Shallow embedding of the chatroom backend server
(`src/chat/chatroom_server.py`): the in-memory `ChatStorage` class and the
Socket.IO event handlers `join`, `leave_room`, `send_message` and
`disconnect`.  Python dictionaries are modelled as association lists in
insertion order (matching dict iteration order); Python sets of user ids are
modelled as duplicate-free lists built by add-if-absent.  Each storage method
returns `Except Err α × ChatStorage`: the `Except` carries the raised
exception (if any) and the second component is the storage state as the
caller observes it afterwards — for methods that check before mutating this
is the unchanged input state on error, while `remove_user` (which mutates
before its raw lookup) can leave a mutated state behind an exception, exactly
as in the Python source.  The nondeterministic `uuid4()` ids and `time()`
timestamps are drawn from a fresh-value counter threaded through the state,
which preserves the only property the code relies on: freshness. -/

/-- Error taxonomy: the `ValueError`s raised by `ChatStorage`, classified by
their messages (`does not exist` → `NotFound`, `already exists` →
`DuplicateName`, `can't be empty` → `InvalidArgument`, `is not in room` →
`NotMember`), plus `KeyError` for raw dictionary/`[]` lookups that are not
guarded by an existence check. -/
inductive Err where
  | NotFound
  | DuplicateName
  | InvalidArgument
  | NotMember
  | KeyError
deriving DecidableEq

deriving instance DecidableEq for Except

/-- The pydantic `User` model. -/
structure User where
  id : String
  name : String
  description : String
deriving DecidableEq

/-- The pydantic `Chatroom` model. -/
structure Chatroom where
  id : String
  name : String
  created_at : Nat
deriving DecidableEq

/-- The pydantic `Message` model. -/
structure Message where
  id : String
  room_id : String
  user_id : String
  user_name : String
  content : String
  created_at : Nat
deriving DecidableEq

/-- Association-list lookup: `m[k]` / `m.get(k)` on a Python dict. -/
def lookupA {α : Type} : List (String × α) → String → Option α
  | [], _ => none
  | p :: rest, k => if p.1 = k then some p.2 else lookupA rest k

/-- `k in m` on a Python dict. -/
def containsA {α : Type} (m : List (String × α)) (k : String) : Bool :=
  (lookupA m k).isSome

/-- `m[k] = v` on a Python dict: update in place if the key exists (dicts
keep the key's position), append otherwise. -/
def setA {α : Type} : List (String × α) → String → α → List (String × α)
  | [], k, v => [(k, v)]
  | p :: rest, k, v => if p.1 = k then (k, v) :: rest else p :: setA rest k v

/-- `del m[k]` on a Python dict (keys are unique in every state we build). -/
def eraseA {α : Type} (m : List (String × α)) (k : String) : List (String × α) :=
  m.filter (fun p => decide (p.1 ≠ k))

/-- `s.add(x)` on a Python set modelled as a duplicate-free list. -/
def addSet (s : List String) (x : String) : List String :=
  if x ∈ s then s else s ++ [x]

/-- Python `str.lower()`, modelled characterwise over the string's
character list so that it evaluates inside the kernel. -/
def lowerStr (s : String) : String := ⟨s.data.map Char.toLower⟩

/-- Python `str.strip()`: drop leading and trailing whitespace (modelled
over the character list so that it evaluates inside the kernel). -/
def stripStr (s : String) : String :=
  ⟨((s.data.dropWhile Char.isWhitespace).reverse.dropWhile Char.isWhitespace).reverse⟩

/-- The `ChatStorage` class: rooms, per-room message lists, users, and
per-room member sets, plus the fresh-value counter standing in for
`uuid4()` / `time()`. -/
structure ChatStorage where
  rooms : List (String × Chatroom)
  messages : List (String × List Message)
  users : List (String × User)
  room_users : List (String × List String)
  nextId : Nat
deriving DecidableEq

/-- `ChatStorage.__init__`: all four dictionaries start empty. -/
def emptyStorage : ChatStorage := ⟨[], [], [], [], 0⟩

/-- `ChatStorage.create_user`: rejects a case-insensitive duplicate name,
otherwise stores a fresh `User`.  (The name is not trimmed or checked for
emptiness.) -/
def ChatStorage.create_user (s : ChatStorage) (name description : String) :
    Except Err User × ChatStorage :=
  if s.users.any (fun p => lowerStr p.2.name == lowerStr name) then
    (Except.error Err.DuplicateName, s)
  else
    let user : User := ⟨toString s.nextId, name, description⟩
    (Except.ok user,
      { s with users := setA s.users user.id user, nextId := s.nextId + 1 })

/-- `ChatStorage.get_user`: `NotFound` if absent. -/
def ChatStorage.get_user (s : ChatStorage) (user_id : String) :
    Except Err User × ChatStorage :=
  match lookupA s.users user_id with
  | none => (Except.error Err.NotFound, s)
  | some u => (Except.ok u, s)

/-- `ChatStorage.get_users`: snapshot of all users in insertion order. -/
def ChatStorage.get_users (s : ChatStorage) : List User × ChatStorage :=
  (s.users.map Prod.snd, s)

/-- `ChatStorage.create_room`: empty-after-strip name is rejected, then a
case-insensitive duplicate name is rejected, otherwise a fresh room is
created together with its empty message list and empty member set. -/
def ChatStorage.create_room (s : ChatStorage) (name : String) :
    Except Err Chatroom × ChatStorage :=
  if stripStr name = "" then (Except.error Err.InvalidArgument, s)
  else if s.rooms.any (fun p => lowerStr p.2.name == lowerStr name) then
    (Except.error Err.DuplicateName, s)
  else
    let room : Chatroom := ⟨toString s.nextId, name, s.nextId⟩
    (Except.ok room,
      { s with
          rooms := setA s.rooms room.id room,
          messages := setA s.messages room.id [],
          room_users := setA s.room_users room.id [],
          nextId := s.nextId + 1 })

/-- `ChatStorage.get_room`: `NotFound` if absent. -/
def ChatStorage.get_room (s : ChatStorage) (room_id : String) :
    Except Err Chatroom × ChatStorage :=
  match lookupA s.rooms room_id with
  | none => (Except.error Err.NotFound, s)
  | some r => (Except.ok r, s)

/-- `ChatStorage.get_rooms`: snapshot of all rooms in insertion order. -/
def ChatStorage.get_rooms (s : ChatStorage) : List Chatroom × ChatStorage :=
  (s.rooms.map Prod.snd, s)

/-- `ChatStorage.add_user_to_room`: room and user must exist, then the user
id is added to the room's member set (`set.add`: a no-op when already
present).  The raw `self.room_users[room_id]` access is a `KeyError` if that
dictionary has no entry for the room. -/
def ChatStorage.add_user_to_room (s : ChatStorage) (room_id user_id : String) :
    Except Err Unit × ChatStorage :=
  if !(containsA s.rooms room_id) then (Except.error Err.NotFound, s)
  else if !(containsA s.users user_id) then (Except.error Err.NotFound, s)
  else
    match lookupA s.room_users room_id with
    | none => (Except.error Err.KeyError, s)
    | some mset =>
        (Except.ok (),
          { s with room_users := setA s.room_users room_id (addSet mset user_id) })

/-- `ChatStorage.remove_user_from_room`: room and user must exist and the
user must currently be a member (`NotMember` otherwise); then the user id is
removed from the room's member set. -/
def ChatStorage.remove_user_from_room (s : ChatStorage) (room_id user_id : String) :
    Except Err Unit × ChatStorage :=
  if !(containsA s.rooms room_id) then (Except.error Err.NotFound, s)
  else if !(containsA s.users user_id) then (Except.error Err.NotFound, s)
  else
    match lookupA s.room_users room_id with
    | none => (Except.error Err.KeyError, s)
    | some mset =>
        if user_id ∈ mset then
          let mset' := mset.filter (fun x => decide (x ≠ user_id))
          (Except.ok (), { s with room_users := setA s.room_users room_id mset' })
        else (Except.error Err.NotMember, s)

/-- `[self.users[user_id] for user_id in uids]`: all raw user lookups of a
member list, `none` when any of them would be a `KeyError`. -/
def allLookups (users : List (String × User)) : List String → Option (List User)
  | [] => some []
  | uid :: rest =>
      match lookupA users uid, allLookups users rest with
      | some u, some us => some (u :: us)
      | _, _ => none

/-- `ChatStorage.get_room_users`: room must exist, then every member id is
resolved through a raw `self.users[user_id]` lookup. -/
def ChatStorage.get_room_users (s : ChatStorage) (room_id : String) :
    Except Err (List User) × ChatStorage :=
  if !(containsA s.rooms room_id) then (Except.error Err.NotFound, s)
  else
    match lookupA s.room_users room_id with
    | none => (Except.error Err.KeyError, s)
    | some mset =>
        match allLookups s.users mset with
        | none => (Except.error Err.KeyError, s)
        | some us => (Except.ok us, s)

/-- `ChatStorage.add_message`: room must exist; the message is built from the
arguments unchecked (no user-existence and no content check) and appended to
the room's list via the raw `self.messages[room_id]` access. -/
def ChatStorage.add_message (s : ChatStorage)
    (room_id user_id user_name content : String) :
    Except Err Message × ChatStorage :=
  if !(containsA s.rooms room_id) then (Except.error Err.NotFound, s)
  else
    let message : Message :=
      ⟨toString s.nextId, room_id, user_id, user_name, content, s.nextId⟩
    match lookupA s.messages room_id with
    | none => (Except.error Err.KeyError, s)
    | some msgs =>
        (Except.ok message,
          { s with
              messages := setA s.messages room_id (msgs ++ [message]),
              nextId := s.nextId + 1 })

/-- `ChatStorage.get_messages`: room must exist; `messages[-limit:]` when
`limit > 0` (the last `limit` messages, in order), the whole list otherwise.
Read-only. -/
def ChatStorage.get_messages (s : ChatStorage) (room_id : String) (limit : Int) :
    Except Err (List Message) × ChatStorage :=
  if !(containsA s.rooms room_id) then (Except.error Err.NotFound, s)
  else
    let msgs := (lookupA s.messages room_id).getD []
    (Except.ok (if limit > 0 then msgs.drop (msgs.length - limit.toNat) else msgs), s)

/-- `ChatStorage.remove_user`: first discards the user id from every room's
member set; then the raw `user = self.users[user_id]` access raises
`KeyError` when the user is absent (the loop's mutations persist), before
the `if user_id in self.users: del` guard can take effect. -/
def ChatStorage.remove_user (s : ChatStorage) (user_id : String) :
    Except Err Unit × ChatStorage :=
  let ru :=
    s.room_users.map (fun p =>
      (p.1, if user_id ∈ p.2 then p.2.filter (fun x => decide (x ≠ user_id)) else p.2))
  let s1 := { s with room_users := ru }
  match lookupA s1.users user_id with
  | none => (Except.error Err.KeyError, s1)
  | some _ =>
      if containsA s1.users user_id then
        (Except.ok (), { s1 with users := eraseA s1.users user_id })
      else (Except.ok (), s1)

/-- A delivery target: one session (`room=sid` in the source) or every
session subscribed to a room. -/
inductive Target where
  | sid (id : String)
  | room (id : String)
deriving DecidableEq

/-- One `sio.emit` call of a handler: the event name and its target.  The
payload dictionaries are display data for the transport layer and carry no
server state, so they are not modelled. -/
structure Delivery where
  event : String
  target : Target
deriving DecidableEq

/-- The module-level server state: the global `storage = ChatStorage()` and
the global `sid_user_map` dictionary. -/
structure ServerState where
  storage : ChatStorage
  sid_user_map : List (String × String)
deriving DecidableEq

/-- The initial module state: empty storage and empty `sid_user_map`. -/
def initialServer : ServerState := ⟨emptyStorage, []⟩

/-- The `join` Socket.IO handler: missing (falsy) fields are rejected;
`add_user_to_room` failures are reported to the originating session only
(a `ValueError` by the inner handler, any other exception by the outer
`except`, both as an `error` emit to `sid`); on success the transport-side
`sio.enter_room` happens (not server state), `sid_user_map[sid]` is bound,
and `room_joined` / `user_joined` are emitted.  No leave of any prior room
is performed. -/
def join (st : ServerState) (sid room_id user_id user_name : String) :
    List Delivery × ServerState :=
  if room_id = "" ∨ user_id = "" ∨ user_name = "" then
    ([⟨"error", Target.sid sid⟩], st)
  else
    match st.storage.add_user_to_room room_id user_id with
    | (Except.error _, s') => ([⟨"error", Target.sid sid⟩], { st with storage := s' })
    | (Except.ok _, s') =>
        ([⟨"room_joined", Target.sid sid⟩, ⟨"user_joined", Target.room room_id⟩],
          { storage := s', sid_user_map := setA st.sid_user_map sid user_id })

/-- The `leave_room` Socket.IO handler: missing fields rejected;
`remove_user_from_room` `ValueError`s are reported to the originating
session; a `KeyError` would escape to the outer `except`, which only logs;
on success `user_left` is emitted to the whole room. -/
def leave_room (st : ServerState) (sid room_id user_id : String) :
    List Delivery × ServerState :=
  if room_id = "" ∨ user_id = "" then
    ([⟨"error", Target.sid sid⟩], st)
  else
    match st.storage.remove_user_from_room room_id user_id with
    | (Except.error Err.KeyError, s') => ([], { st with storage := s' })
    | (Except.error _, s') => ([⟨"error", Target.sid sid⟩], { st with storage := s' })
    | (Except.ok _, s') => ([⟨"user_left", Target.room room_id⟩], { st with storage := s' })

/-- The `send_message` Socket.IO handler: missing fields and
whitespace-only content are rejected; the sender is resolved through
`get_user` (so the canonical `user.id` / `user.name` are stored); then
`add_message` appends and `message` is broadcast to the room. -/
def send_message (st : ServerState) (sid room_id user_id content : String) :
    List Delivery × ServerState :=
  if room_id = "" ∨ user_id = "" ∨ content = "" then
    ([⟨"error", Target.sid sid⟩], st)
  else if stripStr content = "" then
    ([⟨"error", Target.sid sid⟩], st)
  else
    match st.storage.get_user user_id with
    | (Except.error _, s') => ([⟨"error", Target.sid sid⟩], { st with storage := s' })
    | (Except.ok user, s') =>
        match s'.add_message room_id user.id user.name content with
        | (Except.error _, s2) => ([⟨"error", Target.sid sid⟩], { st with storage := s2 })
        | (Except.ok _, s2) => ([⟨"message", Target.room room_id⟩], { st with storage := s2 })

/-- The `disconnect` Socket.IO handler: a session with no bound user is a
no-op; otherwise, for every room (a snapshot of `room_users.items()`) whose
live member set contains the user, `remove_user_from_room` runs and
`user_left` is emitted to that room (each iteration's exceptions are caught
and only logged); then `remove_user` runs (its exception also only logged,
its mutations kept); finally the `sid_user_map` entry is deleted. -/
def disconnect (st : ServerState) (sid : String) : List Delivery × ServerState :=
  match lookupA st.sid_user_map sid with
  | none => ([], st)
  | some user_id =>
      let step := fun (acc : List Delivery × ChatStorage) (p : String × List String) =>
        if user_id ∈ (lookupA acc.2.room_users p.1).getD [] then
          match acc.2.remove_user_from_room p.1 user_id with
          | (Except.ok _, s2) => (acc.1 ++ [⟨"user_left", Target.room p.1⟩], s2)
          | (Except.error _, s2) => (acc.1, s2)
        else acc
      let r := st.storage.room_users.foldl step ([], st.storage)
      let s2 := (r.2.remove_user user_id).2
      (r.1, { storage := s2, sid_user_map := eraseA st.sid_user_map sid })

/-! Association-list and set lemmas used throughout the development. -/

theorem lookupA_setA {α : Type} (m : List (String × α)) (k k' : String) (v : α) :
    lookupA (setA m k v) k' = if k' = k then some v else lookupA m k' := by
  induction m with
  | nil =>
      simp only [setA, lookupA]
      rcases eq_or_ne k' k with h | h
      · simp [h]
      · simp [h, Ne.symm h]
  | cons p rest ih =>
      obtain ⟨a, b⟩ := p
      by_cases hp : a = k
      · simp only [setA, if_pos hp, lookupA]
        rcases eq_or_ne k' k with h | h
        · simp [h]
        · simp [h, Ne.symm h, hp, lookupA]
      · simp only [setA, if_neg hp, lookupA, ih]
        rcases eq_or_ne k' k with h | h
        · subst h
          simp [hp]
        · simp [h]

theorem containsA_setA {α : Type} (m : List (String × α)) (k k' : String) (v : α) :
    containsA (setA m k v) k' = if k' = k then true else containsA m k' := by
  simp only [containsA, lookupA_setA]
  split <;> simp

theorem setA_lookup_eq {α : Type} (m : List (String × α)) (k : String) (v : α)
    (h : lookupA m k = some v) : setA m k v = m := by
  induction m with
  | nil => simp [lookupA] at h
  | cons p rest ih =>
      obtain ⟨a, b⟩ := p
      by_cases hp : a = k
      · simp only [lookupA, if_pos hp] at h
        have hv : b = v := by simpa using h
        simp [setA, hp, hv]
      · simp only [lookupA, if_neg hp] at h
        simp [setA, if_neg hp, ih h]

theorem lookupA_eraseA {α : Type} (m : List (String × α)) (k k' : String) :
    lookupA (eraseA m k) k' = if k' = k then none else lookupA m k' := by
  induction m with
  | nil => simp [eraseA, lookupA]
  | cons p rest ih =>
      obtain ⟨a, b⟩ := p
      by_cases hp : a = k
      · have hdrop : eraseA ((a, b) :: rest) k = eraseA rest k := by
          simp [eraseA, List.filter_cons, hp]
        rw [hdrop, ih]
        rcases eq_or_ne k' k with h | h
        · simp [h]
        · simp [lookupA, hp, h, Ne.symm h]
      · have hkeep : eraseA ((a, b) :: rest) k = (a, b) :: eraseA rest k := by
          simp [eraseA, List.filter_cons, hp]
        rw [hkeep]
        rcases eq_or_ne k' k with h | h
        · subst h
          simp [lookupA, hp, ih]
        · simp [lookupA, ih, h]

theorem containsA_eraseA {α : Type} (m : List (String × α)) (k k' : String) :
    containsA (eraseA m k) k' = if k' = k then false else containsA m k' := by
  simp only [containsA, lookupA_eraseA]
  split <;> simp

theorem lookupA_mapVal {α β : Type} (f : α → β) (m : List (String × α)) (k : String) :
    lookupA (m.map (fun p => (p.1, f p.2))) k = (lookupA m k).map f := by
  induction m with
  | nil => simp [lookupA]
  | cons p rest ih =>
      by_cases hp : p.1 = k
      · simp [lookupA, hp]
      · simp [lookupA, hp, ih]

theorem mem_addSet_self (s : List String) (x : String) : x ∈ addSet s x := by
  by_cases h : x ∈ s
  · simp [addSet, h]
  · simp [addSet, h]

theorem mem_addSet (s : List String) (x y : String) (h : y ∈ addSet s x) :
    y ∈ s ∨ y = x := by
  by_cases hx : x ∈ s
  · simp only [addSet, if_pos hx] at h
    exact Or.inl h
  · simp only [addSet, if_neg hx, List.mem_append, List.mem_singleton] at h
    exact h

theorem mem_addSet_of_mem (s : List String) (x y : String) (h : y ∈ s) :
    y ∈ addSet s x := by
  by_cases hx : x ∈ s
  · simpa [addSet, hx] using h
  · simp [addSet, hx, h]

theorem lookupA_eq_none {α : Type} (m : List (String × α)) (k : String)
    (h : containsA m k = false) : lookupA m k = none := by
  cases hl : lookupA m k with
  | none => rfl
  | some v => simp [containsA, hl] at h

/-! Concrete example states, built by the modelled operations themselves:
user Alice gets id "0", rooms RoomA and RoomB get ids "1" and "2". -/

/-- Storage holding Alice and the two rooms. -/
def exStorage : ChatStorage :=
  (((emptyStorage.create_user "Alice" "").2.create_room "RoomA").2.create_room "RoomB").2

/-- Server state with `exStorage` and no bound sessions. -/
def exServer : ServerState := ⟨exStorage, []⟩

/-- Alice's session joins RoomA. -/
def exAfterJoin1 : ServerState := (join exServer "sid1" "1" "0" "Alice").2

/-- The same session then joins RoomB without having left RoomA. -/
def exAfterJoin2 : ServerState := (join exAfterJoin1 "sid1" "2" "0" "Alice").2

/-- `exStorage` after Alice sends three messages to RoomA. -/
def exMsgStorage : ChatStorage :=
  (((exStorage.add_message "1" "0" "Alice" "m1").2.add_message "1" "0" "Alice" "m2").2.add_message
    "1" "0" "Alice" "m3").2

/-- Claim C7: `create_room` fails with `InvalidArgument` when the name is
empty after trimming, fails with `DuplicateName` when some existing room's
name matches case-insensitively, and otherwise returns a new room carrying
the requested name, stored under its fresh id. -/
theorem create_room_contract (s : ChatStorage) (name : String) :
    (stripStr name = "" →
      s.create_room name = (Except.error Err.InvalidArgument, s)) ∧
    (stripStr name ≠ "" → (∃ p ∈ s.rooms, lowerStr p.2.name = lowerStr name) →
      s.create_room name = (Except.error Err.DuplicateName, s)) ∧
    (stripStr name ≠ "" → (∀ p ∈ s.rooms, lowerStr p.2.name ≠ lowerStr name) →
      ∃ room, (s.create_room name).1 = Except.ok room ∧ room.name = name ∧
        lookupA (s.create_room name).2.rooms room.id = some room) := by
  refine ⟨?_, ?_, ?_⟩
  · intro h
    simp [ChatStorage.create_room, h]
  · intro h hdup
    have hany : s.rooms.any (fun p => lowerStr p.2.name == lowerStr name) = true := by
      simpa only [List.any_eq_true, beq_iff_eq] using hdup
    simp [ChatStorage.create_room, h, hany]
  · intro h hnone
    have hany : ¬ (s.rooms.any (fun p => lowerStr p.2.name == lowerStr name) = true) := by
      simp only [List.any_eq_true, beq_iff_eq]
      push_neg
      exact hnone
    refine ⟨⟨toString s.nextId, name, s.nextId⟩, ?_, rfl, ?_⟩
    · simp [ChatStorage.create_room, h, hany]
    · simp [ChatStorage.create_room, h, hany, lookupA_setA]

/-- Witness for `create_room_contract`: a case-insensitive duplicate of
RoomA is rejected. -/
theorem create_room_contract_witness :
    exStorage.create_room "roomA" = (Except.error Err.DuplicateName, exStorage) :=
  (create_room_contract exStorage "roomA").2.1 (by decide)
    ⟨("1", ⟨"1", "RoomA", 1⟩), by decide, by decide⟩

/-- Claim C8: adding a user who is already a member of an existing room is
idempotent — the call succeeds and the whole storage is returned exactly
unchanged. -/
theorem add_user_to_room_idempotent (s : ChatStorage) (room_id user_id : String)
    (mset : List String)
    (hroom : containsA s.rooms room_id = true)
    (huser : containsA s.users user_id = true)
    (hmem : lookupA s.room_users room_id = some mset)
    (hin : user_id ∈ mset) :
    s.add_user_to_room room_id user_id = (Except.ok (), s) := by
  simp only [ChatStorage.add_user_to_room, hroom, huser, hmem, Bool.not_true,
    Bool.false_eq_true, if_false]
  have : addSet mset user_id = mset := by simp [addSet, hin]
  rw [this, setA_lookup_eq _ _ _ hmem]

/-- Witness for `add_user_to_room_idempotent`: after Alice joined RoomA,
adding her again returns the state unchanged. -/
theorem add_user_to_room_idempotent_witness :
    exAfterJoin1.storage.add_user_to_room "1" "0" = (Except.ok (), exAfterJoin1.storage) :=
  add_user_to_room_idempotent exAfterJoin1.storage "1" "0" ["0"]
    (by decide) (by decide) (by decide) (by decide)

/-- Claim C5: `get_messages` fails with `NotFound` when the room is absent,
never mutates the state, returns the whole log when `limit <= 0`, and for
`limit > 0` returns a suffix of the log (the most-recent messages, in
insertion order) of length `min limit length`. -/
theorem get_messages_tail_contract (s : ChatStorage) (room_id : String) (limit : Int) :
    ((containsA s.rooms room_id = false →
        (s.get_messages room_id limit).1 = Except.error Err.NotFound) ∧
      (s.get_messages room_id limit).2 = s) ∧
    (∀ msgs, containsA s.rooms room_id = true →
      lookupA s.messages room_id = some msgs →
      ((limit ≤ 0 → (s.get_messages room_id limit).1 = Except.ok msgs) ∧
        (0 < limit →
          ∃ res pre, (s.get_messages room_id limit).1 = Except.ok res ∧
            pre ++ res = msgs ∧ res.length = min limit.toNat msgs.length))) := by
  refine ⟨⟨?_, ?_⟩, ?_⟩
  · intro h
    simp [ChatStorage.get_messages, h]
  · simp only [ChatStorage.get_messages]
    split <;> rfl
  · intro msgs hroom hmsgs
    constructor
    · intro hle
      have hnot : ¬ (0 < limit) := by omega
      simp [ChatStorage.get_messages, hroom, hmsgs, hnot]
    · intro hpos
      refine ⟨msgs.drop (msgs.length - limit.toNat),
        msgs.take (msgs.length - limit.toNat), ?_, List.take_append_drop _ _, ?_⟩
      · simp [ChatStorage.get_messages, hroom, hmsgs, hpos]
      · simp only [List.length_drop]
        omega

/-- Witness for `get_messages_tail_contract`: reading RoomA's log with
`limit = 0` returns all three messages in send order. -/
theorem get_messages_tail_contract_witness :
    (exMsgStorage.get_messages "1" 0).1 = Except.ok
      [⟨"3", "1", "0", "Alice", "m1", 3⟩, ⟨"4", "1", "0", "Alice", "m2", 4⟩,
        ⟨"5", "1", "0", "Alice", "m3", 5⟩] :=
  ((get_messages_tail_contract exMsgStorage "1" 0).2
    [⟨"3", "1", "0", "Alice", "m1", 3⟩, ⟨"4", "1", "0", "Alice", "m2", 4⟩,
      ⟨"5", "1", "0", "Alice", "m3", 5⟩] (by decide) (by decide)).1 (by decide)

/-- Claim C3 (code bug): `remove_user` on an absent user id is not a no-op:
the unguarded `user = self.users[user_id]` access on the logging line raises
`KeyError` before the `if user_id in self.users` guard can make the deletion
conditional, so the call fails.  Evaluated at the failing input: user id
"ghost", which exists in no room and not in the Directory. -/
theorem remove_user_absent_raises :
    (exStorage.remove_user "ghost").1 = Except.error Err.KeyError ∧
    (exStorage.remove_user "ghost").2 = exStorage := by decide

/-- Claim C4 counterexample: on an existing room, `add_message` with content
`"   "` — empty after trimming — does not fail with `InvalidArgument`: it
succeeds and appends the blank message to the log. -/
theorem add_message_blank_content_cex :
    stripStr "   " = "" ∧
    (exStorage.add_message "1" "0" "Alice" "   ").1 =
      Except.ok ⟨"3", "1", "0", "Alice", "   ", 3⟩ ∧
    lookupA (exStorage.add_message "1" "0" "Alice" "   ").2.messages "1" =
      some [⟨"3", "1", "0", "Alice", "   ", 3⟩] := by decide

/-- Claim C4 as amended: the storage-level `add_message` fails with
`NotFound` when the room is absent and otherwise appends a new message at
the end of the room's log regardless of its content; the
empty-after-trimming check is enforced only by the coordinator's
`send_message` handler, which rejects such an event with an error to the
originating session and leaves the state unchanged, before `add_message` is
ever called. -/
theorem add_message_contract (s : ChatStorage) (room_id user_id user_name content : String) :
    (containsA s.rooms room_id = false →
      s.add_message room_id user_id user_name content = (Except.error Err.NotFound, s)) ∧
    (∀ msgs, containsA s.rooms room_id = true →
      lookupA s.messages room_id = some msgs →
      ∃ msg, (s.add_message room_id user_id user_name content).1 = Except.ok msg ∧
        msg.content = content ∧
        lookupA (s.add_message room_id user_id user_name content).2.messages room_id =
          some (msgs ++ [msg])) ∧
    (∀ st : ServerState, ∀ sid rid uid : String, stripStr content = "" →
      send_message st sid rid uid content = ([⟨"error", Target.sid sid⟩], st)) := by
  refine ⟨?_, ?_, ?_⟩
  · intro h
    simp [ChatStorage.add_message, h]
  · intro msgs hroom hmsgs
    refine ⟨⟨toString s.nextId, room_id, user_id, user_name, content, s.nextId⟩, ?_, rfl, ?_⟩
    · simp [ChatStorage.add_message, hroom, hmsgs]
    · simp [ChatStorage.add_message, hroom, hmsgs, lookupA_setA]
  · intro st sid rid uid htrim
    by_cases hf : rid = "" ∨ uid = "" ∨ content = ""
    · simp [send_message, hf]
    · simp [send_message, hf, htrim]

/-- Witness for `add_message_contract`: appending to an absent room id fails
with `NotFound` and changes nothing. -/
theorem add_message_contract_witness :
    exStorage.add_message "nope" "0" "Alice" "hi" = (Except.error Err.NotFound, exStorage) :=
  (add_message_contract exStorage "nope" "0" "Alice" "hi").1 (by decide)

/-- Claim C10: `add_message` succeeds whenever the room exists even for a
sender id that exists nowhere in the Directory, appending a message that
carries the given `user_id` and `user_name` unchecked; sender existence is
enforced only by the coordinator's `send_message` path, which rejects an
unknown sender with an error to the originating session and leaves the
state unchanged. -/
theorem add_message_unchecked_sender (s : ChatStorage)
    (room_id user_id user_name content : String) (msgs : List Message)
    (hnouser : containsA s.users user_id = false)
    (hroom : containsA s.rooms room_id = true)
    (hmsgs : lookupA s.messages room_id = some msgs) :
    ((s.add_message room_id user_id user_name content).1 =
        Except.ok ⟨toString s.nextId, room_id, user_id, user_name, content, s.nextId⟩ ∧
      lookupA (s.add_message room_id user_id user_name content).2.messages room_id =
        some (msgs ++ [⟨toString s.nextId, room_id, user_id, user_name, content, s.nextId⟩])) ∧
    (∀ st : ServerState, ∀ sid : String, st.storage = s →
      send_message st sid room_id user_id content = ([⟨"error", Target.sid sid⟩], st)) := by
  constructor
  · constructor
    · simp [ChatStorage.add_message, hroom, hmsgs]
    · simp [ChatStorage.add_message, hroom, hmsgs, lookupA_setA]
  · intro st sid hst
    have hnone : lookupA st.storage.users user_id = none := by
      rw [hst]; exact lookupA_eq_none _ _ hnouser
    by_cases hf : room_id = "" ∨ user_id = "" ∨ content = ""
    · simp [send_message, hf]
    · by_cases htrim : stripStr content = ""
      · simp [send_message, hf, htrim]
      · simp [send_message, hf, htrim, ChatStorage.get_user, hnone]

/-- Witness for `add_message_unchecked_sender`: sending through the
coordinator with the unknown sender id "ghost" yields only an error to the
originating session. -/
theorem add_message_unchecked_sender_witness :
    send_message exServer "sidX" "1" "ghost" "hi" = ([⟨"error", Target.sid "sidX"⟩], exServer) :=
  (add_message_unchecked_sender exStorage "1" "ghost" "Ghost" "hi" []
    (by decide) (by decide) (by decide)).2 exServer "sidX" rfl

/-- Claim C1 counterexample: session "sid1" (bound to Alice, user id "0")
joins RoomA (id "1") and then joins RoomB (id "2"); the claimed leave
semantics for the prior room never happen — Alice is still a member of
RoomA after the second join, so the session is observed as a member of two
rooms at once. -/
theorem join_keeps_old_room_membership_cex :
    lookupA exAfterJoin1.storage.room_users "1" = some ["0"] ∧
    lookupA exAfterJoin2.storage.room_users "1" = some ["0"] ∧
    lookupA exAfterJoin2.storage.room_users "2" = some ["0"] ∧
    lookupA exAfterJoin2.sid_user_map "sid1" = some "0" := by decide

/-- Claim C1 as amended: a successful `join` only adds the user to the new
room's member set and rebinds the session to the user; it removes nothing —
every other room's member set is left exactly as it was, so a session's
user may be a member of several rooms at once, until `leave_room` or
`disconnect` removes it. -/
theorem join_adds_membership_without_leaving (st : ServerState)
    (sid room_id user_id user_name : String) (mset : List String)
    (hr : room_id ≠ "") (hu : user_id ≠ "") (hn : user_name ≠ "")
    (hroom : containsA st.storage.rooms room_id = true)
    (huser : containsA st.storage.users user_id = true)
    (hmem : lookupA st.storage.room_users room_id = some mset) :
    (∃ ms, lookupA (join st sid room_id user_id user_name).2.storage.room_users room_id =
        some ms ∧ user_id ∈ ms ∧ ∀ x ∈ mset, x ∈ ms) ∧
    (∀ r, r ≠ room_id →
      lookupA (join st sid room_id user_id user_name).2.storage.room_users r =
        lookupA st.storage.room_users r) ∧
    lookupA (join st sid room_id user_id user_name).2.sid_user_map sid = some user_id ∧
    (join st sid room_id user_id user_name).2.storage.users = st.storage.users ∧
    (join st sid room_id user_id user_name).2.storage.messages = st.storage.messages := by
  have hres : join st sid room_id user_id user_name =
      ([⟨"room_joined", Target.sid sid⟩, ⟨"user_joined", Target.room room_id⟩],
        { storage :=
            { st.storage with
                room_users := setA st.storage.room_users room_id (addSet mset user_id) },
          sid_user_map := setA st.sid_user_map sid user_id }) := by
    simp [join, hr, hu, hn, ChatStorage.add_user_to_room, hroom, huser, hmem]
  rw [hres]
  refine ⟨⟨addSet mset user_id, ?_, mem_addSet_self _ _, fun x hx => mem_addSet_of_mem _ _ _ hx⟩,
    ?_, ?_, rfl, rfl⟩
  · simp [lookupA_setA]
  · intro r hrne
    simp [lookupA_setA, hrne]
  · simp [lookupA_setA]

/-- Witness for `join_adds_membership_without_leaving`: after Alice's
session joins RoomA, the session is bound to her user id. -/
theorem join_adds_membership_without_leaving_witness :
    lookupA (join exServer "sid1" "1" "0" "Alice").2.sid_user_map "sid1" = some "0" :=
  (join_adds_membership_without_leaving exServer "sid1" "1" "0" "Alice" []
    (by decide) (by decide) (by decide) (by decide) (by decide) (by decide)).2.2.1

theorem lookupA_map_discard (m : List (String × List String)) (uid k : String) :
    lookupA (m.map (fun p =>
        (p.1, if uid ∈ p.2 then p.2.filter (fun x => decide (x ≠ uid)) else p.2))) k =
      (lookupA m k).map
        (fun v => if uid ∈ v then v.filter (fun x => decide (x ≠ uid)) else v) := by
  induction m with
  | nil => rfl
  | cons p rest ih =>
      simp only [List.map_cons, lookupA]
      by_cases hp : p.1 = k
      · rw [if_pos hp, if_pos hp, Option.map_some']
      · rw [if_neg hp, if_neg hp, ih]

theorem remove_user_room_users (s : ChatStorage) (uid : String) :
    (s.remove_user uid).2.room_users =
      s.room_users.map (fun p =>
        (p.1, if uid ∈ p.2 then p.2.filter (fun x => decide (x ≠ uid)) else p.2)) := by
  simp only [ChatStorage.remove_user]
  split
  · rfl
  · split <;> rfl

theorem remove_user_not_mem (s : ChatStorage) (uid rid : String) (ms : List String)
    (h : lookupA (s.remove_user uid).2.room_users rid = some ms) : uid ∉ ms := by
  rw [remove_user_room_users, lookupA_map_discard] at h
  cases hv : lookupA s.room_users rid with
  | none => rw [hv] at h; simp at h
  | some v =>
      rw [hv] at h
      simp only [Option.map_some'] at h
      intro hmem
      by_cases hin : uid ∈ v
      · rw [if_pos hin] at h
        injection h with h
        rw [← h] at hmem
        simp at hmem
      · rw [if_neg hin] at h
        injection h with h
        rw [← h] at hmem
        exact hin hmem

theorem remove_user_user_gone (s : ChatStorage) (uid : String) :
    lookupA (s.remove_user uid).2.users uid = none := by
  simp only [ChatStorage.remove_user]
  cases hl : lookupA s.users uid with
  | none => simp [hl]
  | some u =>
      have hc : containsA ({ s with room_users := s.room_users.map (fun p =>
          (p.1, if uid ∈ p.2 then p.2.filter (fun x => decide (x ≠ uid)) else p.2)) } :
            ChatStorage).users uid = true := by
        simp [containsA, hl]
      simp [hl, hc, lookupA_eraseA]

/-- Claim C2: after `disconnect` of a session bound to user U who is a
member of rooms R1 and R2, U is no longer in either room's member set and
`get_user U` fails with `NotFound` — the cascade removes the user from every
room and from the Directory. -/
theorem disconnect_cascades_removal (st : ServerState) (sid uid r1 r2 : String)
    (m1 m2 : List String)
    (hbind : lookupA st.sid_user_map sid = some uid)
    (h1 : lookupA st.storage.room_users r1 = some m1) (hm1 : uid ∈ m1)
    (h2 : lookupA st.storage.room_users r2 = some m2) (hm2 : uid ∈ m2) :
    (∀ ms, lookupA (disconnect st sid).2.storage.room_users r1 = some ms → uid ∉ ms) ∧
    (∀ ms, lookupA (disconnect st sid).2.storage.room_users r2 = some ms → uid ∉ ms) ∧
    ((disconnect st sid).2.storage.get_user uid).1 = Except.error Err.NotFound := by
  obtain ⟨x, hx⟩ : ∃ x : ChatStorage, (disconnect st sid).2.storage = (x.remove_user uid).2 :=
    ⟨(st.storage.room_users.foldl
        (fun (acc : List Delivery × ChatStorage) (p : String × List String) =>
          if uid ∈ (lookupA acc.2.room_users p.1).getD [] then
            match acc.2.remove_user_from_room p.1 uid with
            | (Except.ok _, s2) => (acc.1 ++ [Delivery.mk "user_left" (Target.room p.1)], s2)
            | (Except.error _, s2) => (acc.1, s2)
          else acc) ([], st.storage)).2,
      by simp only [disconnect, hbind]⟩
  rw [hx]
  refine ⟨fun ms h => remove_user_not_mem x uid r1 ms h,
    fun ms h => remove_user_not_mem x uid r2 ms h, ?_⟩
  simp [ChatStorage.get_user, remove_user_user_gone]

/-- Witness for `disconnect_cascades_removal`: Alice is a member of both
rooms through a single session; after it disconnects, she is no longer
resolvable in the Directory. -/
theorem disconnect_cascades_removal_witness :
    ((disconnect exAfterJoin2 "sid1").2.storage.get_user "0").1 = Except.error Err.NotFound :=
  (disconnect_cascades_removal exAfterJoin2 "sid1" "0" "1" "2" ["0"] ["0"]
    (by decide) (by decide) (by decide) (by decide) (by decide)).2.2

theorem get_user_state (s : ChatStorage) (uid : String) : (s.get_user uid).2 = s := by
  simp only [ChatStorage.get_user]
  split <;> rfl

theorem add_user_to_room_error_unchanged (s : ChatStorage) (rid uid : String) (e : Err)
    (h : (s.add_user_to_room rid uid).1 = Except.error e) :
    (s.add_user_to_room rid uid).2 = s := by
  by_cases h1 : containsA s.rooms rid
  · by_cases h2 : containsA s.users uid
    · cases hm : lookupA s.room_users rid with
      | none => simp [ChatStorage.add_user_to_room, h1, h2, hm]
      | some mset =>
          exfalso
          simp [ChatStorage.add_user_to_room, h1, h2, hm] at h
    · simp [ChatStorage.add_user_to_room, h1, h2]
  · simp [ChatStorage.add_user_to_room, h1]

theorem remove_user_from_room_error_unchanged (s : ChatStorage) (rid uid : String) (e : Err)
    (h : (s.remove_user_from_room rid uid).1 = Except.error e) :
    (s.remove_user_from_room rid uid).2 = s := by
  by_cases h1 : containsA s.rooms rid
  · by_cases h2 : containsA s.users uid
    · cases hm : lookupA s.room_users rid with
      | none => simp [ChatStorage.remove_user_from_room, h1, h2, hm]
      | some mset =>
          by_cases hin : uid ∈ mset
          · exfalso
            simp [ChatStorage.remove_user_from_room, h1, h2, hm, hin] at h
          · simp [ChatStorage.remove_user_from_room, h1, h2, hm, hin]
    · simp [ChatStorage.remove_user_from_room, h1, h2]
  · simp [ChatStorage.remove_user_from_room, h1]

theorem add_message_error_unchanged (s : ChatStorage) (rid uid uname content : String) (e : Err)
    (h : (s.add_message rid uid uname content).1 = Except.error e) :
    (s.add_message rid uid uname content).2 = s := by
  by_cases h1 : containsA s.rooms rid
  · cases hm : lookupA s.messages rid with
    | none => simp [ChatStorage.add_message, h1, hm]
    | some msgs =>
        exfalso
        simp [ChatStorage.add_message, h1, hm] at h
  · simp [ChatStorage.add_message, h1]

/-- Claim C6: whenever an inbound event is answered with an `error` delivery
to the originating session (the translation of every `NotFound` /
`NotMember` / `DuplicateName` / `InvalidArgument` rejection), the whole
server state — Directory, Membership Table and Message Log — is exactly as
it was before the event; in particular a `join` naming a nonexistent room id
changes nothing. -/
theorem failed_events_leave_state_unchanged (st : ServerState)
    (sid room_id user_id user_name content : String) :
    (Delivery.mk "error" (Target.sid sid) ∈ (join st sid room_id user_id user_name).1 →
      (join st sid room_id user_id user_name).2 = st) ∧
    (Delivery.mk "error" (Target.sid sid) ∈ (leave_room st sid room_id user_id).1 →
      (leave_room st sid room_id user_id).2 = st) ∧
    (Delivery.mk "error" (Target.sid sid) ∈ (send_message st sid room_id user_id content).1 →
      (send_message st sid room_id user_id content).2 = st) ∧
    (containsA st.storage.rooms room_id = false →
      (join st sid room_id user_id user_name).2 = st) := by
  refine ⟨?_, ?_, ?_, ?_⟩
  · intro hmem
    by_cases hf : room_id = "" ∨ user_id = "" ∨ user_name = ""
    · simp [join, hf]
    · simp only [join, if_neg hf] at hmem ⊢
      cases hcall : st.storage.add_user_to_room room_id user_id with
      | mk res s' =>
          cases res with
          | error e =>
              have hs : s' = st.storage := by
                have h2 := add_user_to_room_error_unchanged st.storage room_id user_id e
                  (by rw [hcall])
                rw [hcall] at h2
                exact h2
              subst hs
              rfl
          | ok u =>
              exfalso
              rw [hcall] at hmem
              simp [Delivery.mk.injEq] at hmem
  · intro hmem
    by_cases hf : room_id = "" ∨ user_id = ""
    · simp [leave_room, hf]
    · simp only [leave_room, if_neg hf] at hmem ⊢
      cases hcall : st.storage.remove_user_from_room room_id user_id with
      | mk res s' =>
          cases res with
          | error e =>
              have hs : s' = st.storage := by
                have h2 := remove_user_from_room_error_unchanged st.storage room_id user_id e
                  (by rw [hcall])
                rw [hcall] at h2
                exact h2
              subst hs
              cases e <;> rfl
          | ok u =>
              exfalso
              rw [hcall] at hmem
              simp [Delivery.mk.injEq] at hmem
  · intro hmem
    by_cases hf : room_id = "" ∨ user_id = "" ∨ content = ""
    · simp [send_message, hf]
    · by_cases htrim : stripStr content = ""
      · simp [send_message, hf, htrim]
      · simp only [send_message, if_neg hf, if_neg htrim] at hmem ⊢
        cases hcall : st.storage.get_user user_id with
        | mk res s' =>
            have hs : s' = st.storage := by
              have h2 := get_user_state st.storage user_id
              rw [hcall] at h2
              exact h2
            cases res with
            | error e =>
                subst hs
                rfl
            | ok user =>
                cases hcall2 : s'.add_message room_id user.id user.name content with
                | mk res2 s2 =>
                    cases res2 with
                    | error e2 =>
                        have h3 : s2 = s' := by
                          have h4 := add_message_error_unchanged s' room_id user.id user.name
                            content e2 (by rw [hcall2])
                          rw [hcall2] at h4
                          exact h4
                        subst h3
                        subst hs
                        simp [hcall2]
                    | ok m2 =>
                        exfalso
                        simp [hcall, hcall2, Delivery.mk.injEq] at hmem
  · intro hno
    by_cases hf : room_id = "" ∨ user_id = "" ∨ user_name = ""
    · simp [join, hf]
    · have h1 : st.storage.add_user_to_room room_id user_id =
          (Except.error Err.NotFound, st.storage) := by
        simp [ChatStorage.add_user_to_room, hno]
      simp [join, hf, h1]

/-- Witness for `failed_events_leave_state_unchanged`: Bob's session joins a
nonexistent room id; the state is unchanged. -/
theorem failed_events_leave_state_unchanged_witness :
    (join exServer "sidB" "nope" "0" "Bob").2 = exServer :=
  (failed_events_leave_state_unchanged exServer "sidB" "nope" "0" "Bob" "hi").2.2.2 (by decide)

/-- The cross-table storage invariant: the three room-keyed dictionaries
(`rooms`, `messages`, `room_users`) share their key set — every created room
has a message list and a member set — and every user id appearing in any
room's member set is a key of the `users` dictionary. -/
def StoreInv (s : ChatStorage) : Prop :=
  (∀ rid, containsA s.rooms rid = containsA s.messages rid) ∧
  (∀ rid, containsA s.rooms rid = containsA s.room_users rid) ∧
  (∀ rid mset uid, lookupA s.room_users rid = some mset → uid ∈ mset →
    containsA s.users uid = true)

/-- Storage states reachable from the empty storage through the mutating
`ChatStorage` operations (the getters return the state unchanged and are
omitted; the Socket.IO handlers only mutate storage through these
operations). -/
inductive Reachable : ChatStorage → Prop where
  | init : Reachable emptyStorage
  | create_user (s : ChatStorage) (n d : String) (h : Reachable s) :
      Reachable (s.create_user n d).2
  | create_room (s : ChatStorage) (n : String) (h : Reachable s) :
      Reachable (s.create_room n).2
  | add_user_to_room (s : ChatStorage) (rid uid : String) (h : Reachable s) :
      Reachable (s.add_user_to_room rid uid).2
  | remove_user_from_room (s : ChatStorage) (rid uid : String) (h : Reachable s) :
      Reachable (s.remove_user_from_room rid uid).2
  | add_message (s : ChatStorage) (rid uid uname content : String) (h : Reachable s) :
      Reachable (s.add_message rid uid uname content).2
  | remove_user (s : ChatStorage) (uid : String) (h : Reachable s) :
      Reachable (s.remove_user uid).2

theorem StoreInv_empty : StoreInv emptyStorage := by
  refine ⟨fun rid => rfl, fun rid => rfl, ?_⟩
  intro rid mset uid hm hmem
  simp [emptyStorage, lookupA] at hm

theorem StoreInv_create_user (s : ChatStorage) (n d : String) (h : StoreInv s) :
    StoreInv (s.create_user n d).2 := by
  obtain ⟨h1, h2, h3⟩ := h
  by_cases hdup : s.users.any (fun p => lowerStr p.2.name == lowerStr n)
  · simp only [ChatStorage.create_user, if_pos hdup]
    exact ⟨h1, h2, h3⟩
  · simp only [ChatStorage.create_user, if_neg hdup]
    refine ⟨h1, h2, ?_⟩
    intro rid mset uid hm hmem
    rw [containsA_setA]
    by_cases hk : uid = toString s.nextId
    · simp [hk]
    · simp [hk, h3 rid mset uid hm hmem]

theorem StoreInv_create_room (s : ChatStorage) (n : String) (h : StoreInv s) :
    StoreInv (s.create_room n).2 := by
  obtain ⟨h1, h2, h3⟩ := h
  by_cases he : stripStr n = ""
  · simp only [ChatStorage.create_room, if_pos he]
    exact ⟨h1, h2, h3⟩
  · by_cases hdup : s.rooms.any (fun p => lowerStr p.2.name == lowerStr n)
    · simp only [ChatStorage.create_room, if_neg he, if_pos hdup]
      exact ⟨h1, h2, h3⟩
    · simp only [ChatStorage.create_room, if_neg he, if_neg hdup]
      refine ⟨?_, ?_, ?_⟩
      · intro rid
        rw [containsA_setA, containsA_setA]
        by_cases hk : rid = toString s.nextId
        · simp [hk]
        · simp [hk, h1 rid]
      · intro rid
        rw [containsA_setA, containsA_setA]
        by_cases hk : rid = toString s.nextId
        · simp [hk]
        · simp [hk, h2 rid]
      · intro rid mset uid hm hmem
        rw [lookupA_setA] at hm
        by_cases hk : rid = toString s.nextId
        · rw [if_pos hk] at hm
          injection hm with hm
          rw [← hm] at hmem
          simp at hmem
        · rw [if_neg hk] at hm
          exact h3 rid mset uid hm hmem

theorem StoreInv_add_user_to_room (s : ChatStorage) (rid0 uid0 : String) (h : StoreInv s) :
    StoreInv (s.add_user_to_room rid0 uid0).2 := by
  obtain ⟨h1, h2, h3⟩ := h
  by_cases hr : containsA s.rooms rid0
  · by_cases hu : containsA s.users uid0
    · cases hm : lookupA s.room_users rid0 with
      | none =>
          simp only [ChatStorage.add_user_to_room, hr, hu, hm, Bool.not_true]
          exact ⟨h1, h2, h3⟩
      | some mset =>
          have hres : (s.add_user_to_room rid0 uid0).2 =
              { s with room_users := setA s.room_users rid0 (addSet mset uid0) } := by
            simp [ChatStorage.add_user_to_room, hr, hu, hm]
          rw [hres]
          refine ⟨h1, ?_, ?_⟩
          · intro rid
            rw [containsA_setA]
            by_cases hk : rid = rid0
            · simp [hk, hr]
            · simp [hk, h2 rid]
          · intro rid mset' uid hm' hmem
            rw [lookupA_setA] at hm'
            by_cases hk : rid = rid0
            · rw [if_pos hk] at hm'
              injection hm' with hm'
              rw [← hm'] at hmem
              rcases mem_addSet _ _ _ hmem with hin | heq
              · exact h3 rid0 mset uid hm hin
              · rw [heq]
                exact hu
            · rw [if_neg hk] at hm'
              exact h3 rid mset' uid hm' hmem
    · simp only [ChatStorage.add_user_to_room, hr, Bool.not_true]
      have hu' : containsA s.users uid0 = false := by
        simpa using hu
      simp only [hu', Bool.not_false, if_true]
      exact ⟨h1, h2, h3⟩
  · have hr' : containsA s.rooms rid0 = false := by
      simpa using hr
    simp only [ChatStorage.add_user_to_room, hr', Bool.not_false, if_true]
    exact ⟨h1, h2, h3⟩

theorem StoreInv_remove_user_from_room (s : ChatStorage) (rid0 uid0 : String)
    (h : StoreInv s) : StoreInv (s.remove_user_from_room rid0 uid0).2 := by
  obtain ⟨h1, h2, h3⟩ := h
  by_cases hr : containsA s.rooms rid0
  · by_cases hu : containsA s.users uid0
    · cases hm : lookupA s.room_users rid0 with
      | none =>
          simp only [ChatStorage.remove_user_from_room, hr, hu, hm, Bool.not_true]
          exact ⟨h1, h2, h3⟩
      | some mset =>
          by_cases hin : uid0 ∈ mset
          · have hres : (s.remove_user_from_room rid0 uid0).2 =
                { s with room_users := setA s.room_users rid0 (mset.filter (fun x => decide (x ≠ uid0))) } := by
              simp [ChatStorage.remove_user_from_room, hr, hu, hm, hin]
            rw [hres]
            refine ⟨h1, ?_, ?_⟩
            · intro rid
              rw [containsA_setA]
              by_cases hk : rid = rid0
              · simp [hk, hr]
              · simp [hk, h2 rid]
            · intro rid mset' uid hm' hmem
              rw [lookupA_setA] at hm'
              by_cases hk : rid = rid0
              · rw [if_pos hk] at hm'
                injection hm' with hm'
                rw [← hm'] at hmem
                simp only [List.mem_filter, decide_eq_true_eq] at hmem
                exact h3 rid0 mset uid hm hmem.1
              · rw [if_neg hk] at hm'
                exact h3 rid mset' uid hm' hmem
          · simp only [ChatStorage.remove_user_from_room, hr, hu, hm, Bool.not_true,
              if_neg hin]
            exact ⟨h1, h2, h3⟩
    · have hu' : containsA s.users uid0 = false := by simpa using hu
      simp only [ChatStorage.remove_user_from_room, hr, hu', Bool.not_true, Bool.not_false,
        if_true]
      exact ⟨h1, h2, h3⟩
  · have hr' : containsA s.rooms rid0 = false := by simpa using hr
    simp only [ChatStorage.remove_user_from_room, hr', Bool.not_false, if_true]
    exact ⟨h1, h2, h3⟩

theorem StoreInv_add_message (s : ChatStorage) (rid0 uid0 uname content : String)
    (h : StoreInv s) : StoreInv (s.add_message rid0 uid0 uname content).2 := by
  obtain ⟨h1, h2, h3⟩ := h
  by_cases hr : containsA s.rooms rid0
  · cases hm : lookupA s.messages rid0 with
    | none =>
        simp only [ChatStorage.add_message, hr, hm, Bool.not_true]
        exact ⟨h1, h2, h3⟩
    | some msgs =>
        have hres : (s.add_message rid0 uid0 uname content).2 =
            { s with
                messages := setA s.messages rid0
                  (msgs ++ [⟨toString s.nextId, rid0, uid0, uname, content, s.nextId⟩]),
                nextId := s.nextId + 1 } := by
          simp [ChatStorage.add_message, hr, hm]
        rw [hres]
        refine ⟨?_, h2, h3⟩
        intro rid
        rw [containsA_setA]
        by_cases hk : rid = rid0
        · simp [hk, hr]
        · simp [hk, h1 rid]
  · have hr' : containsA s.rooms rid0 = false := by simpa using hr
    simp only [ChatStorage.add_message, hr', Bool.not_false, if_true]
    exact ⟨h1, h2, h3⟩

theorem containsA_map_discard (m : List (String × List String)) (uid k : String) :
    containsA (m.map (fun p =>
        (p.1, if uid ∈ p.2 then p.2.filter (fun x => decide (x ≠ uid)) else p.2))) k =
      containsA m k := by
  rw [containsA, containsA, lookupA_map_discard]
  cases lookupA m k <;> rfl

theorem remove_user_rooms (s : ChatStorage) (uid : String) :
    (s.remove_user uid).2.rooms = s.rooms := by
  simp only [ChatStorage.remove_user]
  split
  · rfl
  · split <;> rfl

theorem remove_user_messages (s : ChatStorage) (uid : String) :
    (s.remove_user uid).2.messages = s.messages := by
  simp only [ChatStorage.remove_user]
  split
  · rfl
  · split <;> rfl

theorem StoreInv_remove_user (s : ChatStorage) (uid0 : String) (h : StoreInv s) :
    StoreInv (s.remove_user uid0).2 := by
  obtain ⟨h1, h2, h3⟩ := h
  have hmemlem : ∀ rid ms uid, lookupA (s.remove_user uid0).2.room_users rid = some ms →
      uid ∈ ms → containsA s.users uid = true ∧ uid ≠ uid0 := by
    intro rid ms uid hm hmem
    rw [remove_user_room_users, lookupA_map_discard] at hm
    cases hv : lookupA s.room_users rid with
    | none => rw [hv] at hm; simp at hm
    | some v =>
        rw [hv] at hm
        simp only [Option.map_some'] at hm
        injection hm with hm
        by_cases hin : uid0 ∈ v
        · rw [if_pos hin] at hm
          rw [← hm] at hmem
          simp only [List.mem_filter, decide_eq_true_eq] at hmem
          exact ⟨h3 rid v uid hv hmem.1, hmem.2⟩
        · rw [if_neg hin] at hm
          rw [← hm] at hmem
          exact ⟨h3 rid v uid hv hmem, fun he => hin (he ▸ hmem)⟩
  have husers : (s.remove_user uid0).2.users = s.users ∨
      (s.remove_user uid0).2.users = eraseA s.users uid0 := by
    cases hl : lookupA s.users uid0 with
    | none => left; simp [ChatStorage.remove_user, hl]
    | some u =>
        right
        have hc : containsA s.users uid0 = true := by simp [containsA, hl]
        simp [ChatStorage.remove_user, hl, hc]
  refine ⟨?_, ?_, ?_⟩
  · intro rid
    rw [remove_user_rooms, remove_user_messages]
    exact h1 rid
  · intro rid
    rw [remove_user_rooms, remove_user_room_users, containsA_map_discard]
    exact h2 rid
  · intro rid ms uid hm hmem
    obtain ⟨hc, hne⟩ := hmemlem rid ms uid hm hmem
    rcases husers with hu | hu <;> rw [hu]
    · exact hc
    · rw [containsA_eraseA]
      simp [hne, hc]

theorem allLookups_isSome (users : List (String × User)) (l : List String)
    (h : ∀ uid ∈ l, containsA users uid = true) : (allLookups users l).isSome := by
  induction l with
  | nil => simp [allLookups]
  | cons uid rest ih =>
      have h1 := h uid (by simp)
      obtain ⟨u, hu⟩ : ∃ u, lookupA users uid = some u := by
        cases hl : lookupA users uid with
        | none => rw [containsA, hl] at h1; simp at h1
        | some u => exact ⟨u, rfl⟩
      have h2 := ih (fun x hx => h x (by simp [hx]))
      obtain ⟨us, hus⟩ : ∃ us, allLookups users rest = some us := by
        cases hA : allLookups users rest with
        | none => rw [hA] at h2; simp at h2
        | some us => exact ⟨us, rfl⟩
      simp [allLookups, hu, hus]

/-- Claim C9: every storage state reachable through the operations satisfies
the cross-table invariant `StoreInv` — the room-keyed dictionaries share
their key set and member sets only hold existing user ids — and hence
`get_room_users` never hits a raw-lookup `KeyError` on a reachable state. -/
theorem reachable_storage_invariant (s : ChatStorage) (hs : Reachable s) :
    StoreInv s ∧ ∀ rid, (s.get_room_users rid).1 ≠ Except.error Err.KeyError := by
  have hinv : StoreInv s := by
    induction hs with
    | init => exact StoreInv_empty
    | create_user s n d h ih => exact StoreInv_create_user s n d ih
    | create_room s n h ih => exact StoreInv_create_room s n ih
    | add_user_to_room s rid uid h ih => exact StoreInv_add_user_to_room s rid uid ih
    | remove_user_from_room s rid uid h ih => exact StoreInv_remove_user_from_room s rid uid ih
    | add_message s rid uid uname content h ih => exact StoreInv_add_message s rid uid uname content ih
    | remove_user s uid h ih => exact StoreInv_remove_user s uid ih
  refine ⟨hinv, ?_⟩
  intro rid
  obtain ⟨h1, h2, h3⟩ := hinv
  by_cases hr : containsA s.rooms rid
  · obtain ⟨mset, hm⟩ : ∃ mset, lookupA s.room_users rid = some mset := by
      have hru : containsA s.room_users rid = true := by rw [← h2 rid]; exact hr
      cases hl : lookupA s.room_users rid with
      | none => rw [containsA, hl] at hru; simp at hru
      | some mset => exact ⟨mset, rfl⟩
    obtain ⟨us, hus⟩ : ∃ us, allLookups s.users mset = some us := by
      have hall := allLookups_isSome s.users mset (fun uid hin => h3 rid mset uid hm hin)
      cases hA : allLookups s.users mset with
      | none => rw [hA] at hall; simp at hall
      | some us => exact ⟨us, rfl⟩
    simp [ChatStorage.get_room_users, hr, hm, hus]
  · have hr' : containsA s.rooms rid = false := by simpa using hr
    simp [ChatStorage.get_room_users, hr']

/-- Witness for `reachable_storage_invariant`: the example storage is built
by the operations, so it is reachable; the invariant holds there and
`get_room_users` on RoomA does not raise. -/
theorem reachable_storage_invariant_witness :
    StoreInv exStorage ∧ (exStorage.get_room_users "1").1 ≠ Except.error Err.KeyError := by
  have hreach : Reachable exStorage :=
    Reachable.create_room _ "RoomB"
      (Reachable.create_room _ "RoomA"
        (Reachable.create_user emptyStorage "Alice" "" Reachable.init))
  exact ⟨(reachable_storage_invariant exStorage hreach).1,
    (reachable_storage_invariant exStorage hreach).2 "1"⟩
